import Mathlib

/-!
Verification of the membership management web application (app.py).

The store is modelled as a list of member rows together with the next
AUTOINCREMENT id; each Flask request handler becomes a pure function from
the store and the submitted form to the new store and a response.  Form
fields arrive as `Option String` (absent fields read as the empty string,
as with request.form.get(key, '')) and are trimmed before use, mirroring
the .strip() calls in the handlers.
-/

namespace MemberApp

/-- A row of the members table: iid INTEGER PRIMARY KEY AUTOINCREMENT,
username TEXT UNIQUE NOT NULL, email TEXT UNIQUE NOT NULL,
password TEXT NOT NULL, phone TEXT, birthdate TEXT. -/
structure Member where
  iid : Nat
  username : String
  email : String
  password : String
  phone : String
  birthdate : String
deriving Repr, DecidableEq

/-- The members table plus sqlite's AUTOINCREMENT counter: `nextId` is the
id the next INSERT will receive; AUTOINCREMENT never reuses ids. Rows are
kept in insertion (rowid) order, which is the order sqlite returns them. -/
structure Store where
  rows : List Member
  nextId : Nat
deriving Repr, DecidableEq

/-- The freshly created table (init_db on an empty database): no rows,
first AUTOINCREMENT id is 1. -/
def emptyStore : Store := ⟨[], 1⟩

/-- Python str.strip(): remove leading and trailing whitespace
characters. -/
def strip (s : String) : String :=
  ⟨((s.data.dropWhile Char.isWhitespace).reverse.dropWhile Char.isWhitespace).reverse⟩

/-- request.form.get(key, '').strip(): an absent field reads as the empty
string, and the value is trimmed. -/
def formGet (o : Option String) : String := strip (o.getD "")

/-- The response a handler produces: a redirect to the error view with a
message, a redirect to the login view, a redirect to the welcome view for
an id, a redirect to the home view, a rendered welcome page, a rendered
error page, or a rendered edit form. -/
inductive Response where
  | redirectError (message : String)
  | redirectLogin
  | redirectWelcome (iid : Nat)
  | redirectHome
  | renderWelcome (username : String) (iid : Nat)
  | renderError (message : String)
  | renderEdit (user : Member)
deriving Repr, DecidableEq

/-- The INSERT INTO members statement: sqlite raises IntegrityError (here
`none`) when the UNIQUE constraint on username or email is violated;
otherwise the row is appended with the next AUTOINCREMENT id. -/
def insertMember (s : Store) (u e p ph bd : String) : Option Store :=
  if s.rows.any (fun m => m.username == u || m.email == e) then none
  else some ⟨s.rows ++ [⟨s.nextId, u, e, p, ph, bd⟩], s.nextId + 1⟩

/-- The form submitted to POST /register. -/
structure RegForm where
  username : Option String
  email : Option String
  password : Option String
  phone : Option String
  birthdate : Option String
deriving Repr, DecidableEq

/-- POST /register: trim the five fields; reject when username, email or
password is empty; reject when the username is already present (pre-query
SELECT iid FROM members WHERE username = ?); otherwise attempt the INSERT,
turning an IntegrityError into the email-in-use error; on success redirect
to the login view. Error messages are the literal strings of app.py. -/
def register (s : Store) (f : RegForm) : Store × Response :=
  let username := formGet f.username
  let email := formGet f.email
  let password := formGet f.password
  let phone := formGet f.phone
  let birthdate := formGet f.birthdate
  if username = "" ∨ email = "" ∨ password = "" then
    (s, .redirectError "請輸入用戶名、電子郵件和密碼")
  else if s.rows.any (fun m => m.username == username) then
    (s, .redirectError "用戶名已存在")
  else
    match insertMember s username email password phone birthdate with
    | none => (s, .redirectError "電子郵件已被使用")
    | some s' => (s', .redirectLogin)

/-- The form submitted to POST /login. -/
structure LoginForm where
  email : Option String
  password : Option String
deriving Repr, DecidableEq

/-- POST /login: trim email and password; reject empties; SELECT * FROM
members WHERE email = ? AND password = ? and fetch the first row; found
renders the welcome view with the row's username and iid, otherwise
redirect to the error view with the credential message. -/
def login (s : Store) (f : LoginForm) : Response :=
  let email := formGet f.email
  let password := formGet f.password
  if email = "" ∨ password = "" then
    .redirectError "請輸入電子郵件和密碼"
  else
    match s.rows.find? (fun m => m.email == email && m.password == password) with
    | some user => .renderWelcome user.username user.iid
    | none => .redirectError "電子郵件或密碼錯誤"

/-- GET /welcome/(iid): look the member up; absent renders the error view,
present renders the welcome view with username and iid. -/
def welcome (s : Store) (iid : Nat) : Response :=
  match s.rows.find? (fun m => m.iid == iid) with
  | none => .renderError "用戶不存在"
  | some user => .renderWelcome user.username user.iid

/-- The form submitted to POST /edit_profile/(iid). -/
structure EditForm where
  email : Option String
  password : Option String
  phone : Option String
  birthdate : Option String
deriving Repr, DecidableEq

/-- The UPDATE members SET email = ?, password = ?, phone = ?,
birthdate = ? WHERE iid = ? statement, applied to one row. -/
def updateRow (em pw ph bd : String) (iid : Nat) (m : Member) : Member :=
  if m.iid == iid then { m with email := em, password := pw, phone := ph, birthdate := bd }
  else m

/-- POST /edit_profile/(iid): load the member by id (absent renders the
error view); trim the four fields; reject empty email or password; reject
when the email is used by a row with a different iid (SELECT 1 FROM
members WHERE email = ? AND iid != ?); otherwise run the UPDATE and
redirect to the welcome view for that id. -/
def editProfile (s : Store) (iid : Nat) (f : EditForm) : Store × Response :=
  match s.rows.find? (fun m => m.iid == iid) with
  | none => (s, .renderError "用戶不存在")
  | some _ =>
    let email := formGet f.email
    let password := formGet f.password
    let phone := formGet f.phone
    let birthdate := formGet f.birthdate
    if email = "" ∨ password = "" then
      (s, .renderError "請輸入電子郵件和密碼")
    else if s.rows.any (fun m => m.email == email && m.iid != iid) then
      (s, .renderError "電子郵件已被使用")
    else
      (⟨s.rows.map (updateRow email password phone birthdate iid), s.nextId⟩,
       .redirectWelcome iid)

/-- GET /delete/(iid): DELETE FROM members WHERE iid = ?, then redirect to
the home view. -/
def delete_user (s : Store) (iid : Nat) : Store × Response :=
  (⟨s.rows.filter (fun m => m.iid != iid), s.nextId⟩, .redirectHome)

/-- A state-mutating request: the POST bodies of register and
edit_profile, and the delete route (GET requests to the other routes do
not touch the store). -/
inductive Op where
  | register (f : RegForm)
  | editProfile (iid : Nat) (f : EditForm)
  | delete_user (iid : Nat)
deriving Repr

/-- The store reached after one request. -/
def applyOp (s : Store) : Op → Store
  | .register f => (register s f).1
  | .editProfile iid f => (editProfile s iid f).1
  | .delete_user iid => (delete_user s iid).1

/-- The store reached after a sequence of requests. -/
def runOps (s : Store) (ops : List Op) : Store := ops.foldl applyOp s

/-- The schema constraints on the members rows: the PRIMARY KEY and the
two UNIQUE columns are pairwise distinct. -/
def rowsOk (l : List Member) : Prop :=
  l.Pairwise (fun a b => a.iid ≠ b.iid ∧ a.username ≠ b.username ∧ a.email ≠ b.email)

/-- Well-formedness of the store: the schema constraints hold and every
row id is below the AUTOINCREMENT counter. -/
def Wf (s : Store) : Prop :=
  rowsOk s.rows ∧ ∀ m ∈ s.rows, m.iid < s.nextId

/-- A store holding one registered member, as produced by the spec's
scenario register(username=alice, email=a@x.com, password=p1). -/
def mAlice : Member := ⟨1, "alice", "a@x.com", "p1", "", ""⟩

/-- A second registered member. -/
def mBob : Member := ⟨2, "bob", "b@x.com", "p2", "", ""⟩

/-- The store after registering alice. -/
def storeA : Store := ⟨[mAlice], 2⟩

/-- The store after registering alice and bob. -/
def storeAB : Store := ⟨[mAlice, mBob], 3⟩

/-- The registration form of the spec's scenario. -/
def fAlice : RegForm := ⟨some "alice", some "a@x.com", some "p1", none, none⟩

theorem wf_emptyStore : Wf emptyStore := by
  constructor <;> simp [emptyStore, rowsOk]

theorem updateRow_iid (em pw ph bd : String) (i : Nat) (m : Member) :
    (updateRow em pw ph bd i m).iid = m.iid := by
  unfold updateRow; split <;> rfl

theorem updateRow_username (em pw ph bd : String) (i : Nat) (m : Member) :
    (updateRow em pw ph bd i m).username = m.username := by
  unfold updateRow; split <;> rfl

theorem pairwise_map_of_mem {l : List Member} {g : Member → Member}
    {R S : Member → Member → Prop}
    (h : ∀ a ∈ l, ∀ b ∈ l, R a b → S (g a) (g b)) (hp : l.Pairwise R) :
    (l.map g).Pairwise S := by
  induction l with
  | nil => simp
  | cons a t ih =>
    rw [List.pairwise_cons] at hp
    simp only [List.map_cons, List.pairwise_cons]
    refine ⟨?_, ih (fun x hx y hy => h x (by simp [hx]) y (by simp [hy])) hp.2⟩
    intro b hb
    obtain ⟨c, hc, rfl⟩ := List.mem_map.mp hb
    exact h a (by simp) c (by simp [hc]) (hp.1 c hc)

theorem insertMember_some {s : Store} {u e p ph bd : String} {s' : Store}
    (h : insertMember s u e p ph bd = some s') :
    (∀ m ∈ s.rows, m.username ≠ u ∧ m.email ≠ e) ∧
    s' = ⟨s.rows ++ [⟨s.nextId, u, e, p, ph, bd⟩], s.nextId + 1⟩ := by
  unfold insertMember at h
  split at h
  · exact absurd h (by simp)
  · next hany =>
    simp only [List.any_eq_true, not_exists, not_and] at hany
    refine ⟨?_, by injection h with h; exact h.symm⟩
    intro m hm
    have := hany m hm
    simp only [Bool.or_eq_true, beq_iff_eq, not_or] at this
    exact this

theorem insertMember_none {s : Store} {u e p ph bd : String}
    (h : ∃ m ∈ s.rows, m.username = u ∨ m.email = e) :
    insertMember s u e p ph bd = none := by
  unfold insertMember
  rw [if_pos]
  simp only [List.any_eq_true, Bool.or_eq_true, beq_iff_eq]
  exact h

theorem register_eq_of_empty (s : Store) (f : RegForm)
    (h : formGet f.username = "" ∨ formGet f.email = "" ∨ formGet f.password = "") :
    register s f = (s, .redirectError "請輸入用戶名、電子郵件和密碼") := by
  simp only [register]
  rw [if_pos h]

theorem register_eq_of_dup_username (s : Store) (f : RegForm)
    (hne : ¬(formGet f.username = "" ∨ formGet f.email = "" ∨ formGet f.password = ""))
    (hdup : ∃ m ∈ s.rows, m.username = formGet f.username) :
    register s f = (s, .redirectError "用戶名已存在") := by
  simp only [register]
  have hany : s.rows.any (fun m => m.username == formGet f.username) = true := by
    simp only [List.any_eq_true, beq_iff_eq]
    exact hdup
  rw [if_neg hne, if_pos hany]

theorem register_eq_of_dup_email (s : Store) (f : RegForm)
    (hne : ¬(formGet f.username = "" ∨ formGet f.email = "" ∨ formGet f.password = ""))
    (hufresh : ∀ m ∈ s.rows, m.username ≠ formGet f.username)
    (hdupe : ∃ m ∈ s.rows, m.email = formGet f.email) :
    register s f = (s, .redirectError "電子郵件已被使用") := by
  simp only [register]
  have hany : s.rows.any (fun m => m.username == formGet f.username) = false := by
    simp only [List.any_eq_false, beq_iff_eq]
    exact hufresh
  have hins : insertMember s (formGet f.username) (formGet f.email) (formGet f.password)
      (formGet f.phone) (formGet f.birthdate) = none := by
    obtain ⟨m, hm, hme⟩ := hdupe
    exact insertMember_none ⟨m, hm, Or.inr hme⟩
  rw [if_neg hne, if_neg (by simp [hany]), hins]

theorem register_eq_of_success (s : Store) (f : RegForm)
    (hne : ¬(formGet f.username = "" ∨ formGet f.email = "" ∨ formGet f.password = ""))
    (hfresh : ∀ m ∈ s.rows, m.username ≠ formGet f.username ∧ m.email ≠ formGet f.email) :
    register s f =
      (⟨s.rows ++ [⟨s.nextId, formGet f.username, formGet f.email, formGet f.password,
          formGet f.phone, formGet f.birthdate⟩], s.nextId + 1⟩, .redirectLogin) := by
  simp only [register]
  have hany : s.rows.any (fun m => m.username == formGet f.username) = false := by
    simp only [List.any_eq_false, beq_iff_eq]
    exact fun m hm => (hfresh m hm).1
  have hins : insertMember s (formGet f.username) (formGet f.email) (formGet f.password)
      (formGet f.phone) (formGet f.birthdate) =
      some ⟨s.rows ++ [⟨s.nextId, formGet f.username, formGet f.email, formGet f.password,
        formGet f.phone, formGet f.birthdate⟩], s.nextId + 1⟩ := by
    unfold insertMember
    rw [if_neg]
    simp only [List.any_eq_true, Bool.or_eq_true, beq_iff_eq, not_exists, not_and, not_or]
    exact fun m hm => hfresh m hm
  rw [if_neg hne, if_neg (by simp [hany]), hins]

theorem register_store_cases (s : Store) (f : RegForm) :
    (register s f).1 = s ∨
    ((∀ m ∈ s.rows, m.username ≠ formGet f.username ∧ m.email ≠ formGet f.email) ∧
     (register s f).1 = ⟨s.rows ++ [⟨s.nextId, formGet f.username, formGet f.email,
        formGet f.password, formGet f.phone, formGet f.birthdate⟩], s.nextId + 1⟩) := by
  simp only [register]
  split
  · left; rfl
  split
  · left; rfl
  rename_i h1 h2
  cases hins : insertMember s (formGet f.username) (formGet f.email) (formGet f.password)
      (formGet f.phone) (formGet f.birthdate) with
  | none => left; rfl
  | some s' =>
    right
    obtain ⟨hfresh, hs'⟩ := insertMember_some hins
    exact ⟨hfresh, by rw [hs']⟩

theorem register_login_inv (s : Store) (f : RegForm)
    (h : (register s f).2 = .redirectLogin) :
    (register s f).1 = ⟨s.rows ++ [⟨s.nextId, formGet f.username, formGet f.email,
        formGet f.password, formGet f.phone, formGet f.birthdate⟩], s.nextId + 1⟩ := by
  revert h
  simp only [register]
  split
  · intro h; cases h
  split
  · intro h; cases h
  cases hins : insertMember s (formGet f.username) (formGet f.email) (formGet f.password)
      (formGet f.phone) (formGet f.birthdate) with
  | none => intro h; cases h
  | some s' =>
    intro _
    obtain ⟨_, hs'⟩ := insertMember_some hins
    rw [hs']

theorem find?_mem_of_exists {l : List Member} {p : Member → Bool}
    (h : ∃ m ∈ l, p m = true) : ∃ m, l.find? p = some m := by
  cases hf : l.find? p with
  | some m => exact ⟨m, rfl⟩
  | none =>
    rw [List.find?_eq_none] at hf
    obtain ⟨m, hm, hpm⟩ := h
    exact absurd hpm (hf m hm)

theorem editProfile_eq_of_dup_email (s : Store) (i : Nat) (f : EditForm)
    (hmem : ∃ m ∈ s.rows, m.iid = i)
    (hne : ¬(formGet f.email = "" ∨ formGet f.password = ""))
    (hdup : ∃ m ∈ s.rows, m.email = formGet f.email ∧ m.iid ≠ i) :
    editProfile s i f = (s, .renderError "電子郵件已被使用") := by
  obtain ⟨m0, hfind⟩ := find?_mem_of_exists (p := fun m => m.iid == i)
    (by obtain ⟨m, hm, hmi⟩ := hmem; exact ⟨m, hm, by simp [hmi]⟩)
  have hany : s.rows.any (fun m => m.email == formGet f.email && m.iid != i) = true := by
    simp only [List.any_eq_true, Bool.and_eq_true, beq_iff_eq, bne_iff_ne]
    exact hdup
  simp only [editProfile]
  rw [hfind]
  simp only
  rw [if_neg hne, if_pos hany]

theorem editProfile_eq_of_success (s : Store) (i : Nat) (f : EditForm)
    (hmem : ∃ m ∈ s.rows, m.iid = i)
    (hne : ¬(formGet f.email = "" ∨ formGet f.password = ""))
    (hok : ∀ m ∈ s.rows, m.email = formGet f.email → m.iid = i) :
    editProfile s i f =
      (⟨s.rows.map (updateRow (formGet f.email) (formGet f.password)
          (formGet f.phone) (formGet f.birthdate) i), s.nextId⟩, .redirectWelcome i) := by
  obtain ⟨m0, hfind⟩ := find?_mem_of_exists (p := fun m => m.iid == i)
    (by obtain ⟨m, hm, hmi⟩ := hmem; exact ⟨m, hm, by simp [hmi]⟩)
  have hany : s.rows.any (fun m => m.email == formGet f.email && m.iid != i) = false := by
    simp only [List.any_eq_false, Bool.and_eq_true, beq_iff_eq, bne_iff_ne, not_and]
    exact fun m hm hme => not_not_intro (hok m hm hme)
  simp only [editProfile]
  rw [hfind]
  simp only
  rw [if_neg hne, if_neg (by simp [hany])]

theorem editProfile_store_cases (s : Store) (i : Nat) (f : EditForm) :
    (editProfile s i f).1 = s ∨
    ((∀ m ∈ s.rows, m.email = formGet f.email → m.iid = i) ∧
     (editProfile s i f).1 = ⟨s.rows.map (updateRow (formGet f.email) (formGet f.password)
        (formGet f.phone) (formGet f.birthdate) i), s.nextId⟩) := by
  simp only [editProfile]
  cases hfind : s.rows.find? (fun m => m.iid == i) with
  | none => left; rfl
  | some m0 =>
    simp only
    split
    · left; rfl
    split
    · left; rfl
    rename_i h1 h2
    right
    refine ⟨?_, rfl⟩
    simp only [List.any_eq_true, Bool.and_eq_true, beq_iff_eq, bne_iff_ne, not_exists,
      not_and] at h2
    intro m hm hme
    by_contra hni
    exact h2 m hm hme hni

theorem editProfile_welcome_inv (s : Store) (i : Nat) (f : EditForm)
    (h : (editProfile s i f).2 = .redirectWelcome i) :
    (editProfile s i f).1 = ⟨s.rows.map (updateRow (formGet f.email) (formGet f.password)
        (formGet f.phone) (formGet f.birthdate) i), s.nextId⟩ := by
  revert h
  simp only [editProfile]
  cases hfind : s.rows.find? (fun m => m.iid == i) with
  | none => intro h; cases h
  | some m0 =>
    simp only
    split
    · intro h; cases h
    split
    · intro h; cases h
    intro _
    rfl

theorem wf_register (s : Store) (f : RegForm) (h : Wf s) : Wf (register s f).1 := by
  rcases register_store_cases s f with hc | ⟨hfresh, hc⟩
  · rw [hc]; exact h
  · rw [hc]
    constructor
    · apply List.pairwise_append.mpr
      refine ⟨h.1, by simp [rowsOk], ?_⟩
      intro a ha b hb
      simp only [List.mem_singleton] at hb
      subst hb
      exact ⟨Nat.ne_of_lt (h.2 a ha), (hfresh a ha).1, (hfresh a ha).2⟩
    · intro m hm
      simp only [List.mem_append, List.mem_singleton] at hm
      rcases hm with hm | rfl
      · exact Nat.lt_trans (h.2 m hm) (Nat.lt_succ_self _)
      · exact Nat.lt_succ_self _

theorem wf_editProfile (s : Store) (i : Nat) (f : EditForm) (h : Wf s) :
    Wf (editProfile s i f).1 := by
  rcases editProfile_store_cases s i f with hc | ⟨hok, hc⟩
  · rw [hc]; exact h
  · rw [hc]
    constructor
    · refine pairwise_map_of_mem ?_ h.1
      intro a ha b hb hab
      refine ⟨by rw [updateRow_iid, updateRow_iid]; exact hab.1,
        by rw [updateRow_username, updateRow_username]; exact hab.2.1, ?_⟩
      unfold updateRow
      by_cases hai : a.iid = i <;> by_cases hbi : b.iid = i
      · exact absurd (hai.trans hbi.symm) hab.1
      · rw [if_pos (by simp [hai]), if_neg (by simp [hbi])]
        simp only
        intro hbe
        exact hbi (hok b hb hbe.symm)
      · rw [if_neg (by simp [hai]), if_pos (by simp [hbi])]
        simp only
        intro hae
        exact hai (hok a ha hae)
      · rw [if_neg (by simp [hai]), if_neg (by simp [hbi])]
        exact hab.2.2
    · intro m hm
      obtain ⟨m0, hm0, rfl⟩ := List.mem_map.mp hm
      rw [updateRow_iid]
      exact h.2 m0 hm0

theorem wf_delete_user (s : Store) (i : Nat) (h : Wf s) : Wf (delete_user s i).1 := by
  constructor
  · exact h.1.sublist (List.filter_sublist _)
  · intro m hm
    exact h.2 m (List.mem_of_mem_filter hm)

theorem wf_applyOp (s : Store) (op : Op) (h : Wf s) : Wf (applyOp s op) := by
  cases op with
  | register f => exact wf_register s f h
  | editProfile i f => exact wf_editProfile s i f h
  | delete_user i => exact wf_delete_user s i h

theorem wf_runOps (ops : List Op) (s : Store) (h : Wf s) : Wf (runOps s ops) := by
  induction ops generalizing s with
  | nil => exact h
  | cons op t ih => exact ih (applyOp s op) (wf_applyOp s op h)

/-- C1: for every valid (username, email, password) triple with nonempty
trimmed fields and no username or email collision with a stored member,
POST /register appends exactly one new row holding those fields with the
next AUTOINCREMENT id, redirects to the login view, and a subsequent POST
/login with the same email and password renders the welcome view with
that member's username and assigned id. -/
theorem register_then_login_succeeds (s : Store) (f : RegForm)
    (hu : formGet f.username ≠ "") (he : formGet f.email ≠ "") (hp : formGet f.password ≠ "")
    (hfresh : ∀ m ∈ s.rows, m.username ≠ formGet f.username ∧ m.email ≠ formGet f.email) :
    (register s f).2 = Response.redirectLogin ∧
    (register s f).1.rows = s.rows ++ [⟨s.nextId, formGet f.username, formGet f.email,
      formGet f.password, formGet f.phone, formGet f.birthdate⟩] ∧
    login (register s f).1 ⟨f.email, f.password⟩ =
      Response.renderWelcome (formGet f.username) s.nextId := by
  have hne : ¬(formGet f.username = "" ∨ formGet f.email = "" ∨ formGet f.password = "") := by
    push_neg
    exact ⟨hu, he, hp⟩
  have hreg := register_eq_of_success s f hne hfresh
  refine ⟨by rw [hreg], by rw [hreg], ?_⟩
  rw [hreg]
  simp only [login]
  rw [if_neg (by push_neg; exact ⟨he, hp⟩)]
  have h1 : s.rows.find?
      (fun m => m.email == formGet f.email && m.password == formGet f.password) = none := by
    rw [List.find?_eq_none]
    intro m hm
    simp only [Bool.and_eq_true, beq_iff_eq, not_and]
    intro hme
    exact absurd hme (hfresh m hm).2
  rw [List.find?_append, h1, Option.none_or, List.find?_cons_of_pos _ (by simp)]

/-- C2: starting from the empty store, after any sequence of register,
edit_profile and delete_user requests, no two stored rows share a
username and no two stored rows share an email. -/
theorem unique_username_email_invariant (ops : List Op) :
    (runOps emptyStore ops).rows.Pairwise (fun a b => a.username ≠ b.username) ∧
    (runOps emptyStore ops).rows.Pairwise (fun a b => a.email ≠ b.email) := by
  have h := wf_runOps ops emptyStore wf_emptyStore
  exact ⟨h.1.imp (fun hab => hab.2.1), h.1.imp (fun hab => hab.2.2)⟩

/-- C3: POST /register applies its checks in order: empty trimmed
username, email or password first (with the enter-fields message, the
literal Chinese string of app.py glossed in the spec as enter username,
email, and password); then the username pre-query (username-exists
message); then the insert attempt, mapping a uniqueness failure of the
store to the email-in-use message; and on a successful insert it
redirects to the login view. -/
theorem register_validation_order (s : Store) (f : RegForm) :
    ((formGet f.username = "" ∨ formGet f.email = "" ∨ formGet f.password = "") →
      register s f = (s, Response.redirectError "請輸入用戶名、電子郵件和密碼")) ∧
    (formGet f.username ≠ "" → formGet f.email ≠ "" → formGet f.password ≠ "" →
      (∃ m ∈ s.rows, m.username = formGet f.username) →
      register s f = (s, Response.redirectError "用戶名已存在")) ∧
    (formGet f.username ≠ "" → formGet f.email ≠ "" → formGet f.password ≠ "" →
      (∀ m ∈ s.rows, m.username ≠ formGet f.username) →
      insertMember s (formGet f.username) (formGet f.email) (formGet f.password)
        (formGet f.phone) (formGet f.birthdate) = none →
      register s f = (s, Response.redirectError "電子郵件已被使用")) ∧
    (formGet f.username ≠ "" → formGet f.email ≠ "" → formGet f.password ≠ "" →
      (∀ m ∈ s.rows, m.username ≠ formGet f.username) →
      ∀ s', insertMember s (formGet f.username) (formGet f.email) (formGet f.password)
        (formGet f.phone) (formGet f.birthdate) = some s' →
      register s f = (s', Response.redirectLogin)) := by
  have hany : (∀ m ∈ s.rows, m.username ≠ formGet f.username) →
      s.rows.any (fun m => m.username == formGet f.username) = false := by
    intro hufresh
    simp only [List.any_eq_false, beq_iff_eq]
    exact hufresh
  refine ⟨register_eq_of_empty s f, ?_, ?_, ?_⟩
  · intro hu he hp hdup
    exact register_eq_of_dup_username s f (by push_neg; exact ⟨hu, he, hp⟩) hdup
  · intro hu he hp hufresh hins
    simp only [register]
    rw [if_neg (by push_neg; exact ⟨hu, he, hp⟩), if_neg (by simp [hany hufresh]), hins]
  · intro hu he hp hufresh s' hins
    simp only [register]
    rw [if_neg (by push_neg; exact ⟨hu, he, hp⟩), if_neg (by simp [hany hufresh]), hins]

/-- Witness for C1: the spec's scenario on the empty store, with id 1. -/
theorem register_then_login_succeeds_witness :
    (register emptyStore fAlice).2 = Response.redirectLogin ∧
    (register emptyStore fAlice).1.rows = emptyStore.rows ++ [⟨emptyStore.nextId,
      formGet fAlice.username, formGet fAlice.email, formGet fAlice.password,
      formGet fAlice.phone, formGet fAlice.birthdate⟩] ∧
    login (register emptyStore fAlice).1 ⟨fAlice.email, fAlice.password⟩ =
      Response.renderWelcome (formGet fAlice.username) emptyStore.nextId :=
  register_then_login_succeeds emptyStore fAlice (by decide) (by decide) (by decide)
    (by decide)

/-- Witness for C3: each branch exercised at a concrete store and form. -/
theorem register_validation_order_witness :
    register storeA ⟨none, some "c@x.com", some "p", none, none⟩ =
      (storeA, Response.redirectError "請輸入用戶名、電子郵件和密碼") ∧
    register storeA ⟨some "alice", some "c@x.com", some "p", none, none⟩ =
      (storeA, Response.redirectError "用戶名已存在") ∧
    register storeA ⟨some "carol", some "a@x.com", some "p", none, none⟩ =
      (storeA, Response.redirectError "電子郵件已被使用") ∧
    register storeA ⟨some "carol", some "c@x.com", some "p", none, none⟩ =
      (⟨storeA.rows ++ [⟨2, "carol", "c@x.com", "p", "", ""⟩], 3⟩, Response.redirectLogin) :=
  ⟨(register_validation_order storeA ⟨none, some "c@x.com", some "p", none, none⟩).1
      (by decide),
   (register_validation_order storeA ⟨some "alice", some "c@x.com", some "p", none, none⟩).2.1
      (by decide) (by decide) (by decide) (by decide),
   (register_validation_order storeA ⟨some "carol", some "a@x.com", some "p", none, none⟩).2.2.1
      (by decide) (by decide) (by decide) (by decide) (by decide),
   (register_validation_order storeA ⟨some "carol", some "c@x.com", some "p", none, none⟩).2.2.2
      (by decide) (by decide) (by decide) (by decide)
      ⟨storeA.rows ++ [⟨2, "carol", "c@x.com", "p", "", ""⟩], 3⟩ (by decide)⟩

/-- C4 counterexample: a POST to /edit_profile/1 whose submitted email
new@x.com is used by no other id, but whose password is empty, does not
succeed: it fails with the enter-email-and-password error, refuting the
claim for arbitrary POSTs (the emptiness check runs first). -/
theorem edit_profile_claim_cex :
    (∀ m ∈ storeA.rows,
      m.email = formGet (EditForm.mk (some "new@x.com") (some "") none none).email →
      m.iid = 1) ∧
    (editProfile storeA 1 ⟨some "new@x.com", some "", none, none⟩).2 ≠
      Response.redirectWelcome 1 ∧
    editProfile storeA 1 ⟨some "new@x.com", some "", none, none⟩ =
      (storeA, Response.renderError "請輸入電子郵件和密碼") := by decide

/-- C4 (amended): for every stored member with id i and every POST to
/edit_profile/i whose trimmed email and password are nonempty: if the
submitted email is used by a member with a different id the request fails
with the email-in-use error and the store (so in particular row i) is
unchanged; if the submitted email is used by no other id the update
succeeds and redirects to the welcome view for id i. -/
theorem edit_profile_email_uniqueness (s : Store) (i : Nat) (f : EditForm)
    (hmem : ∃ m ∈ s.rows, m.iid = i)
    (he : formGet f.email ≠ "") (hp : formGet f.password ≠ "") :
    ((∃ m ∈ s.rows, m.email = formGet f.email ∧ m.iid ≠ i) →
      editProfile s i f = (s, Response.renderError "電子郵件已被使用")) ∧
    ((∀ m ∈ s.rows, m.email = formGet f.email → m.iid = i) →
      (editProfile s i f).2 = Response.redirectWelcome i) := by
  have hne : ¬(formGet f.email = "" ∨ formGet f.password = "") := by
    push_neg
    exact ⟨he, hp⟩
  exact ⟨fun hdup => editProfile_eq_of_dup_email s i f hmem hne hdup,
    fun hok => by rw [editProfile_eq_of_success s i f hmem hne hok]⟩

/-- Witness for C4 (amended): editing alice to bob's email fails and
leaves the store unchanged; editing alice to her own email succeeds. -/
theorem edit_profile_email_uniqueness_witness :
    editProfile storeAB 1 ⟨some "b@x.com", some "p9", none, none⟩ =
      (storeAB, Response.renderError "電子郵件已被使用") ∧
    (editProfile storeAB 1 ⟨some "a@x.com", some "p9", none, none⟩).2 =
      Response.redirectWelcome 1 :=
  ⟨(edit_profile_email_uniqueness storeAB 1 ⟨some "b@x.com", some "p9", none, none⟩
      (by decide) (by decide) (by decide)).1 (by decide),
   (edit_profile_email_uniqueness storeAB 1 ⟨some "a@x.com", some "p9", none, none⟩
      (by decide) (by decide) (by decide)).2 (by decide)⟩

/-- C5 counterexample: with alice stored, a registration attempt with
username alice but an empty email fails with the enter-fields error, not
the username-exists error, refuting the claim for all choices of the
other submitted fields (the emptiness check runs first). -/
theorem register_dup_username_claim_cex :
    (∃ m ∈ storeA.rows,
      m.username = formGet (RegForm.mk (some "alice") (some "") (some "p") none none).username) ∧
    (register storeA ⟨some "alice", some "", some "p", none, none⟩).2 ≠
      Response.redirectError "用戶名已存在" ∧
    register storeA ⟨some "alice", some "", some "p", none, none⟩ =
      (storeA, Response.redirectError "請輸入用戶名、電子郵件和密碼") := by decide

/-- C5 (amended): for every store containing a member whose username
equals the trimmed submitted username, a registration attempt whose
trimmed username, email and password are nonempty fails with the
username-exists error and leaves the store unchanged, for all choices of
email, password, phone and birthdate. -/
theorem register_dup_username_rejected (s : Store) (f : RegForm)
    (hstored : ∃ m ∈ s.rows, m.username = formGet f.username)
    (hu : formGet f.username ≠ "") (he : formGet f.email ≠ "")
    (hp : formGet f.password ≠ "") :
    register s f = (s, Response.redirectError "用戶名已存在") :=
  register_eq_of_dup_username s f (by push_neg; exact ⟨hu, he, hp⟩) hstored

/-- Witness for C5 (amended): re-registering alice with entirely
different other fields is rejected and adds no row. -/
theorem register_dup_username_rejected_witness :
    register storeA ⟨some "alice", some "zz@x.com", some "p7", some "123",
        some "2000-01-01"⟩ =
      (storeA, Response.redirectError "用戶名已存在") :=
  register_dup_username_rejected storeA
    ⟨some "alice", some "zz@x.com", some "p7", some "123", some "2000-01-01"⟩
    (by decide) (by decide) (by decide) (by decide)

/-- C6: with a member holding email e stored, a registration attempt
with a fresh nonempty username, nonempty password and that email passes
the username pre-query (it reports no hit), the INSERT itself fails on
the uniqueness constraint, and the handler maps this to the email-in-use
error with no row added. -/
theorem register_dup_email_rejected (s : Store) (f : RegForm)
    (hu : formGet f.username ≠ "") (he : formGet f.email ≠ "")
    (hp : formGet f.password ≠ "")
    (hufresh : ∀ m ∈ s.rows, m.username ≠ formGet f.username)
    (hemail : ∃ m ∈ s.rows, m.email = formGet f.email) :
    s.rows.any (fun m => m.username == formGet f.username) = false ∧
    insertMember s (formGet f.username) (formGet f.email) (formGet f.password)
      (formGet f.phone) (formGet f.birthdate) = none ∧
    register s f = (s, Response.redirectError "電子郵件已被使用") := by
  refine ⟨?_, ?_, ?_⟩
  · simp only [List.any_eq_false, beq_iff_eq]
    exact hufresh
  · obtain ⟨m, hm, hme⟩ := hemail
    exact insertMember_none ⟨m, hm, Or.inr hme⟩
  · exact register_eq_of_dup_email s f (by push_neg; exact ⟨hu, he, hp⟩) hufresh hemail

/-- Witness for C6: registering bob with alice's email is rejected by
the constraint with the email-in-use error. -/
theorem register_dup_email_rejected_witness :
    storeA.rows.any (fun m => m.username == formGet (some "bob")) = false ∧
    insertMember storeA (formGet (some "bob")) (formGet (some "a@x.com"))
      (formGet (some "p2")) (formGet none) (formGet none) = none ∧
    register storeA ⟨some "bob", some "a@x.com", some "p2", none, none⟩ =
      (storeA, Response.redirectError "電子郵件已被使用") :=
  register_dup_email_rejected storeA ⟨some "bob", some "a@x.com", some "p2", none, none⟩
    (by decide) (by decide) (by decide) (by decide) (by decide)

/-- C7: a login attempt with a stored member's email but a wrong
password and a login attempt with an email belonging to no member both
redirect to the error view with the same credential-error message, so
the response does not reveal whether the email exists. -/
theorem login_failure_indistinguishable (s : Store) (f1 f2 : LoginForm)
    (he1 : formGet f1.email ≠ "") (hp1 : formGet f1.password ≠ "")
    (he2 : formGet f2.email ≠ "") (hp2 : formGet f2.password ≠ "")
    (_hstored : ∃ m ∈ s.rows, m.email = formGet f1.email)
    (hwrong : ∀ m ∈ s.rows, m.email = formGet f1.email →
      m.password ≠ formGet f1.password)
    (hunknown : ∀ m ∈ s.rows, m.email ≠ formGet f2.email) :
    login s f1 = Response.redirectError "電子郵件或密碼錯誤" ∧
    login s f2 = Response.redirectError "電子郵件或密碼錯誤" ∧
    login s f1 = login s f2 := by
  have h1 : login s f1 = Response.redirectError "電子郵件或密碼錯誤" := by
    simp only [login]
    rw [if_neg (by push_neg; exact ⟨he1, hp1⟩)]
    have hf : s.rows.find?
        (fun m => m.email == formGet f1.email && m.password == formGet f1.password) = none := by
      rw [List.find?_eq_none]
      intro m hm
      simp only [Bool.and_eq_true, beq_iff_eq, not_and]
      exact hwrong m hm
    rw [hf]
  have h2 : login s f2 = Response.redirectError "電子郵件或密碼錯誤" := by
    simp only [login]
    rw [if_neg (by push_neg; exact ⟨he2, hp2⟩)]
    have hf : s.rows.find?
        (fun m => m.email == formGet f2.email && m.password == formGet f2.password) = none := by
      rw [List.find?_eq_none]
      intro m hm
      simp only [Bool.and_eq_true, beq_iff_eq, not_and]
      intro hme
      exact absurd hme (hunknown m hm)
    rw [hf]
  exact ⟨h1, h2, h1.trans h2.symm⟩

/-- Witness for C7: wrong password for alice's email and an unknown
email produce the identical credential error. -/
theorem login_failure_indistinguishable_witness :
    login storeA ⟨some "a@x.com", some "wrong"⟩ =
      Response.redirectError "電子郵件或密碼錯誤" ∧
    login storeA ⟨some "zz@x.com", some "p1"⟩ =
      Response.redirectError "電子郵件或密碼錯誤" ∧
    login storeA ⟨some "a@x.com", some "wrong"⟩ = login storeA ⟨some "zz@x.com", some "p1"⟩ :=
  login_failure_indistinguishable storeA ⟨some "a@x.com", some "wrong"⟩
    ⟨some "zz@x.com", some "p1"⟩ (by decide) (by decide) (by decide) (by decide)
    (by decide) (by decide) (by decide)

/-- C8: GET /delete/(id) redirects to home and removes exactly the rows
with that id: membership in the resulting rows is membership in the old
rows with a different id, the surviving rows keep their relative order
and values, deleting an absent id leaves the store unchanged, and
deleting twice equals deleting once. -/
theorem delete_user_behaviour (s : Store) (i : Nat) :
    (delete_user s i).2 = Response.redirectHome ∧
    (∀ m, m ∈ (delete_user s i).1.rows ↔ m ∈ s.rows ∧ m.iid ≠ i) ∧
    (delete_user s i).1.rows.Sublist s.rows ∧
    ((∀ m ∈ s.rows, m.iid ≠ i) → (delete_user s i).1 = s) ∧
    delete_user (delete_user s i).1 i = delete_user s i := by
  refine ⟨rfl, ?_, List.filter_sublist _, ?_, ?_⟩
  · intro m
    simp [delete_user, List.mem_filter]
  · intro h
    have hfe : s.rows.filter (fun m => m.iid != i) = s.rows :=
      List.filter_eq_self.mpr (fun m hm => by simpa using h m hm)
    simp only [delete_user, hfe]
  · have hff : (s.rows.filter (fun m => m.iid != i)).filter (fun m => m.iid != i) =
        s.rows.filter (fun m => m.iid != i) := by
      rw [List.filter_filter]
      simp
    simp only [delete_user, hff]

/-- Witness for C8: deleting the absent id 5 from the one-member store
is a no-op that still redirects home, and deleting id 2 is idempotent. -/
theorem delete_user_behaviour_witness :
    (delete_user storeA 5).1 = storeA ∧
    (delete_user storeA 5).2 = Response.redirectHome ∧
    delete_user (delete_user storeA 2).1 2 = delete_user storeA 2 :=
  ⟨(delete_user_behaviour storeA 5).2.2.2.1 (by decide),
   (delete_user_behaviour storeA 5).1,
   (delete_user_behaviour storeA 2).2.2.2.2⟩

/-- C9: no operation modifies a stored username or id: edit_profile
leaves the list of (id, username) pairs unchanged whatever its outcome;
on success its store is exactly the old rows with only the email,
password, phone and birthdate of the addressed row replaced; and
register leaves every previously stored row untouched in place. -/
theorem edit_preserves_identity (s : Store) (i : Nat) (f : EditForm) :
    ((editProfile s i f).1.rows.map (fun m => (m.iid, m.username)) =
      s.rows.map (fun m => (m.iid, m.username))) ∧
    ((editProfile s i f).2 = Response.redirectWelcome i →
      (editProfile s i f).1.rows = s.rows.map (updateRow (formGet f.email)
        (formGet f.password) (formGet f.phone) (formGet f.birthdate) i)) ∧
    (∀ g : RegForm, (register s g).1.rows.take s.rows.length = s.rows) := by
  refine ⟨?_, fun h => by rw [editProfile_welcome_inv s i f h], ?_⟩
  · rcases editProfile_store_cases s i f with hc | ⟨_, hc⟩
    · rw [hc]
    · rw [hc]
      simp only [List.map_map]
      apply List.map_congr_left
      intro m hm
      simp [Function.comp, updateRow_iid, updateRow_username]
  · intro g
    rcases register_store_cases s g with hc | ⟨_, hc⟩
    · rw [hc]
      exact List.take_length s.rows
    · rw [hc]
      exact List.take_left s.rows _

/-- Witness for C9: a successful edit of alice keeps her id and
username, and a registration keeps the existing row in place. -/
theorem edit_preserves_identity_witness :
    ((editProfile storeA 1 ⟨some "n@x.com", some "q", none, none⟩).1.rows.map
      (fun m => (m.iid, m.username)) = storeA.rows.map (fun m => (m.iid, m.username))) ∧
    ((editProfile storeA 1 ⟨some "n@x.com", some "q", none, none⟩).1.rows =
      storeA.rows.map (updateRow (formGet (some "n@x.com")) (formGet (some "q"))
        (formGet none) (formGet none) 1)) ∧
    ((register storeA ⟨some "carol", some "c@x.com", some "p", none, none⟩).1.rows.take
      storeA.rows.length = storeA.rows) :=
  ⟨(edit_preserves_identity storeA 1 ⟨some "n@x.com", some "q", none, none⟩).1,
   (edit_preserves_identity storeA 1 ⟨some "n@x.com", some "q", none, none⟩).2.1 (by decide),
   (edit_preserves_identity storeA 1 ⟨some "n@x.com", some "q", none, none⟩).2.2
     ⟨some "carol", some "c@x.com", some "p", none, none⟩⟩

/-- C10: when the optional phone or birthdate field is absent from the
submitted form, a successful register stores the new row with phone and
birthdate equal to the empty string, and a successful edit_profile
stores the addressed row with phone and birthdate equal to the empty
string; in this model every stored row always carries all six fields as
strings. -/
theorem absent_optional_fields_empty (s : Store) (f : RegForm) (i : Nat) (g : EditForm)
    (hfp : f.phone = none) (hfb : f.birthdate = none)
    (hgp : g.phone = none) (hgb : g.birthdate = none) :
    ((register s f).2 = Response.redirectLogin →
      (register s f).1.rows = s.rows ++ [⟨s.nextId, formGet f.username, formGet f.email,
        formGet f.password, "", ""⟩]) ∧
    ((editProfile s i g).2 = Response.redirectWelcome i →
      ∀ m ∈ (editProfile s i g).1.rows, m.iid = i → m.phone = "" ∧ m.birthdate = "") := by
  have h1 : formGet f.phone = "" := by rw [hfp]; rfl
  have h2 : formGet f.birthdate = "" := by rw [hfb]; rfl
  have h3 : formGet g.phone = "" := by rw [hgp]; rfl
  have h4 : formGet g.birthdate = "" := by rw [hgb]; rfl
  refine ⟨?_, ?_⟩
  · intro h
    rw [register_login_inv s f h, h1, h2]
  · intro h m hm hmi
    rw [editProfile_welcome_inv s i g h] at hm
    obtain ⟨m0, hm0, rfl⟩ := List.mem_map.mp hm
    rw [updateRow_iid] at hmi
    unfold updateRow
    rw [if_pos (by simp [hmi])]
    exact ⟨h3, h4⟩

/-- Witness for C10: registering carol without phone and birthdate
stores empty strings, and editing alice without phone and birthdate
stores empty strings. -/
theorem absent_optional_fields_empty_witness :
    ((register storeA ⟨some "carol", some "c@x.com", some "p", none, none⟩).1.rows =
      storeA.rows ++ [⟨storeA.nextId, formGet (some "carol"), formGet (some "c@x.com"),
        formGet (some "p"), "", ""⟩]) ∧
    (∀ m ∈ (editProfile storeA 1 ⟨some "n@x.com", some "q", none, none⟩).1.rows,
      m.iid = 1 → m.phone = "" ∧ m.birthdate = "") :=
  ⟨((absent_optional_fields_empty storeA
      ⟨some "carol", some "c@x.com", some "p", none, none⟩ 1
      ⟨some "n@x.com", some "q", none, none⟩ rfl rfl rfl rfl).1 (by decide)),
   ((absent_optional_fields_empty storeA
      ⟨some "carol", some "c@x.com", some "p", none, none⟩ 1
      ⟨some "n@x.com", some "q", none, none⟩ rfl rfl rfl rfl).2 (by decide))⟩

end MemberApp
